import Mathlib

/-!
Shallow embedding of the data service layer of the react-table-implementation
repository (file `src/src/services/dataService.js`), together with theorems
about its sorting, searching, caching, generation and export behaviour.

Modelling conventions:
* JavaScript dynamic values that can appear as sort keys / cells are embedded
  as the inductive type `JSVal` (null-or-undefined, number, string).
* Machine `Date` objects are embedded as epoch-millisecond integers; parsing an
  ISO date string is an external runtime facility and is passed in as an
  explicit parameter `parse : String → Int`.  Likewise the wall clock is passed
  as explicit data (`now : Int`, or a stream of clock readings for the
  generator), and locale date formatting (`toLocaleDateString`) as
  `fmtDate : Option String → String`.
* `Array.prototype.sort` is required by ECMA-262 to be stable; it is embedded
  as `List.mergeSort` with `le a b := (comparator a b ≤ 0)`.
* The `Map` used for the sort cache is embedded as an insertion-ordered
  association list (`Map.set` appends unknown keys at the end, updates known
  keys in place; `Map.delete` of the first key drops the head).
-/

/-- Embedding of the JavaScript values that occur as field / cell values:
`null`/`undefined`, numbers, and strings. -/
inductive JSVal where
  | null : JSVal
  | num  : Int → JSVal
  | str  : String → JSVal
deriving DecidableEq, Repr

/-- `true` exactly on number values. -/
def JSVal.isNum : JSVal → Bool
  | JSVal.num _ => true
  | _ => false

/-- JavaScript truthiness test (restricted to the values of `JSVal`):
`null`/`undefined`, `0` and `""` are falsy. -/
def jsFalsy : JSVal → Bool
  | JSVal.null => true
  | JSVal.num n => n == 0
  | JSVal.str s => s == ""

/-- JavaScript `toString` on the values of `JSVal` (numbers are integers in
this code base, so decimal notation is exact). -/
def jsValToString : JSVal → String
  | JSVal.null => "null"
  | JSVal.num n => toString n
  | JSVal.str s => s

/-- A string field read from a record; `none` models `null`/`undefined`. -/
def optStrVal : Option String → JSVal
  | none => JSVal.null
  | some s => JSVal.str s

/-- JavaScript template-literal / property-key coercion of a possibly null
string (`null` prints as `"null"`). -/
def jsTemplate : Option String → String
  | none => "null"
  | some s => s

/-- Embedding of the `User` class of `dataService.js`: the six stored fields.
String fields are `Option String` so that the null/undefined cases the service
explicitly handles are representable; `registeredDate` holds the ISO string. -/
structure User where
  id : Int
  firstName : Option String
  lastName : Option String
  email : Option String
  city : Option String
  registeredDate : Option String
deriving DecidableEq, Repr

/-- `get fullName()`: firstName, a space, lastName (template literal). -/
def User.fullName (u : User) : String :=
  jsTemplate u.firstName ++ " " ++ jsTemplate u.lastName

/-- Epoch milliseconds of a possibly null date string (`new Date(null)` is the
epoch, i.e. `0`); `parse` is the external ISO-8601 parser. -/
def parseDate (parse : String → Int) : Option String → Int
  | none => 0
  | some s => parse s

/-- `get daysSinceRegistered()`: `floor(|now - registeredDate| / 86400000)`. -/
def User.daysSinceRegistered (parse : String → Int) (now : Int) (u : User) : Int :=
  Int.ofNat ((now - parseDate parse u.registeredDate).natAbs / 86400000)

/-- `getSortValue(user, field)`: the two computed properties by name, every
other field read off the record (`user[field]`, which is `undefined` for an
unknown field name). -/
def getSortValue (parse : String → Int) (now : Int) (u : User) (field : String) : JSVal :=
  if field = "fullName" then JSVal.str u.fullName
  else if field = "daysSinceRegistered" then JSVal.num (u.daysSinceRegistered parse now)
  else if field = "id" then JSVal.num u.id
  else if field = "firstName" then optStrVal u.firstName
  else if field = "lastName" then optStrVal u.lastName
  else if field = "email" then optStrVal u.email
  else if field = "city" then optStrVal u.city
  else if field = "registeredDate" then optStrVal u.registeredDate
  else JSVal.null

/-- Strict lexicographic order on character lists: the embedding of the
JavaScript `<` relational operator on strings (code-unit lexicographic). -/
def charListLt : List Char → List Char → Bool
  | _, [] => false
  | [], _ :: _ => true
  | a :: as, b :: bs => decide (a < b) || (decide (a = b) && charListLt as bs)

/-- JavaScript `x < y` on strings. -/
def strLt (x y : String) : Bool := charListLt x.data y.data

/-- JavaScript `x.toLowerCase()` (ASCII case folding, as used here). -/
def jsToLower (s : String) : String := String.mk (s.data.map Char.toLower)

/-- JavaScript `s.trim()`: strip leading and trailing whitespace. -/
def jsTrim (s : String) : String :=
  String.mk (((s.data.dropWhile Char.isWhitespace).reverse.dropWhile
    Char.isWhitespace).reverse)

/-- Split a character list at every occurrence of `c`, keeping empty pieces:
the embedding of JavaScript `String.prototype.split` with a one-character
separator. -/
def splitChar (c : Char) : List Char → List (List Char)
  | [] => [[]]
  | a :: as =>
    if a = c then [] :: splitChar c as
    else
      match splitChar c as with
      | [] => [[a]]
      | p :: ps => (a :: p) :: ps

/-- JavaScript `s.split(sep)` for a one-character separator. -/
def jsSplit (sep : Char) (s : String) : List String :=
  (splitChar sep s.data).map String.mk

/-- `p` is a prefix of the second list. -/
def isPrefOf : List Char → List Char → Bool
  | [], _ => true
  | _ :: _, [] => false
  | a :: as, b :: bs => decide (a = b) && isPrefOf as bs

/-- `p` occurs as a contiguous sublist. -/
def isInfOf (p : List Char) : List Char → Bool
  | [] => decide (p = [])
  | b :: bs => isPrefOf p (b :: bs) || isInfOf p bs

/-- JavaScript `s.includes(sub)`. -/
def jsIncludes (s sub : String) : Bool := isInfOf sub.data s.data

/-- JavaScript `xs.join(sep)`. -/
def joinSep (sep : String) : List String → String
  | [] => ""
  | [x] => x
  | x :: y :: xs => x ++ sep ++ joinSep sep (y :: xs)

/-- JavaScript `s.includes(c)` for a single character. -/
def strContainsChar (s : String) (c : Char) : Bool := s.data.contains c

/-- The three-way string comparison `x > y ? 1 : x < y ? -1 : 0` used by the
sort comparator after lower-casing (`>`/`<` being the JavaScript string
relational operators). -/
def strCmp (x y : String) : Int :=
  if strLt y x then 1 else if strLt x y then -1 else 0

/-- `new Date(v)` valued in epoch milliseconds: strings are parsed, numbers
are already timestamps, `null` is the epoch. -/
def jsDateVal (parse : String → Int) : JSVal → Int
  | JSVal.null => 0
  | JSVal.num n => n
  | JSVal.str s => parse s

/-- The body of the comparator passed to `sort` in `sortUsers`, acting on the
two extracted sort values.  Branches in source order: both null; one null
(nulls sort last ascending, first descending); both numbers; the
`registeredDate` date comparison; case-insensitive string comparison.  The
number/string mixed cases in the final branch yield `0` (JavaScript relational
comparison against `NaN`); they are unreachable because `getSortValue` returns
values of one type per field. -/
def valCompare (parse : String → Int) (field direction : String) :
    JSVal → JSVal → Int
  | JSVal.null, JSVal.null => 0
  | JSVal.null, _ => if direction = "asc" then 1 else -1
  | _, JSVal.null => if direction = "asc" then -1 else 1
  | JSVal.num x, JSVal.num y => if direction = "asc" then x - y else y - x
  | JSVal.str x, JSVal.str y =>
      if field = "registeredDate" then
        if direction = "asc" then parse x - parse y else parse y - parse x
      else
        if direction = "asc" then strCmp (jsToLower x) (jsToLower y)
        else strCmp (jsToLower y) (jsToLower x)
  | JSVal.num x, JSVal.str y =>
      if field = "registeredDate" then
        if direction = "asc" then x - parse y else parse y - x
      else 0
  | JSVal.str x, JSVal.num y =>
      if field = "registeredDate" then
        if direction = "asc" then parse x - y else y - parse x
      else 0

/-- The comparator of `sortUsers`, as a function of the two users. -/
def compareUsers (parse : String → Int) (now : Int) (field direction : String)
    (a b : User) : Int :=
  valCompare parse field direction (getSortValue parse now a field)
    (getSortValue parse now b field)

/-- The boolean "may come first" relation induced by the comparator; a stable
JavaScript sort keeps `a` before `b` whenever `comparator a b ≤ 0`. -/
def userLE (parse : String → Int) (now : Int) (field direction : String)
    (a b : User) : Bool :=
  decide (compareUsers parse now field direction a b ≤ 0)

/-- `[...users].sort(comparator)`: a stable sort of a copy of the input by the
comparator of `sortUsers` (ECMA-262 requires `Array.prototype.sort` to be
stable; insertion sort realises the stable sort on the comparator-induced
relation). -/
def sortList (parse : String → Int) (now : Int) (field direction : String)
    (users : List User) : List User :=
  users.insertionSort (fun a b => userLE parse now field direction a b = true)

/-- The Data Service state: the stored collection and the sort-result cache
(`Map` as an insertion-ordered association list). -/
structure DataService where
  users : List User
  sortCache : List (String × List User)
deriving DecidableEq, Repr

/-- `Map.get`. -/
def mapGet (k : String) : List (String × List User) → Option (List User)
  | [] => none
  | kv :: rest => if kv.1 = k then some kv.2 else mapGet k rest

/-- `Map.set`: update in place if the key is present, else append at the end
(JavaScript `Map` iterates in insertion order). -/
def mapSet (k : String) (v : List User) :
    List (String × List User) → List (String × List User)
  | [] => [(k, v)]
  | kv :: rest => if kv.1 = k then (k, v) :: rest else kv :: mapSet k v rest

/-- The cache key string `` `${field}-${direction}-${users.length}` ``. -/
def cacheKey (field direction : String) (n : Nat) : String :=
  field ++ "-" ++ direction ++ "-" ++ toString n

/-- `DataService.sortUsers(field, direction, usersToSort)`: returns the sorted
sequence and the updated service state.  A full-collection call first consults
the cache; on a miss it sorts a copy of the collection, stores it, and evicts
the first (oldest) cache entry if the cache has grown beyond 20 entries.  A
call with a caller-supplied subset sorts that subset and leaves the cache
alone. -/
def DataService.sortUsers (parse : String → Int) (now : Int) (svc : DataService)
    (field direction : String) (usersToSort : Option (List User)) :
    List User × DataService :=
  let users := usersToSort.getD svc.users
  let key := cacheKey field direction users.length
  match usersToSort, mapGet key svc.sortCache with
  | none, some cached => (cached, svc)
  | _, _ =>
    let sortedUsers := sortList parse now field direction users
    match usersToSort with
    | none =>
      let cache1 := mapSet key sortedUsers svc.sortCache
      let cache2 := if cache1.length > 20 then cache1.tail else cache1
      (sortedUsers, { svc with sortCache := cache2 })
    | some _ => (sortedUsers, svc)

/-- `DataService.clearCache()`. -/
def DataService.clearCache (svc : DataService) : DataService :=
  { svc with sortCache := [] }

/-- One external `sortUsers` request: either on the full collection or on a
caller-supplied subset. -/
inductive SortRequest where
  | full (field direction : String)
  | subset (field direction : String) (users : List User)
deriving DecidableEq, Repr

/-- Run one request for its state effect. -/
def applyRequest (parse : String → Int) (now : Int) (svc : DataService) :
    SortRequest → DataService
  | SortRequest.full f d => (svc.sortUsers parse now f d none).2
  | SortRequest.subset f d us => (svc.sortUsers parse now f d (some us)).2

/-- Run a sequence of `sortUsers` requests for their state effects. -/
def runRequests (parse : String → Int) (now : Int) (svc : DataService) :
    List SortRequest → DataService
  | [] => svc
  | r :: rs => runRequests parse now (applyRequest parse now svc r) rs

/-- The default `fields` argument of `searchUsers`. -/
def defaultSearchFields : List String :=
  ["firstName", "lastName", "email", "city", "fullName"]

/-- The term list of `searchUsers`:
`query.toLowerCase().trim().split(' ').filter(term => term.length > 0)`. -/
def searchTerms (query : String) : List String :=
  (jsSplit ' ' (jsTrim (jsToLower query))).filter (fun t => t.length > 0)

/-- One term against one field of one user:
`value && value.toString().toLowerCase().includes(searchTerm)`. -/
def fieldMatches (parse : String → Int) (now : Int) (u : User) (term field : String) :
    Bool :=
  let value := getSortValue parse now u field
  !jsFalsy value && jsIncludes (jsToLower (jsValToString value)) term

/-- The filter predicate of `searchUsers`: every term matches on some field. -/
def userMatches (parse : String → Int) (now : Int) (fields : List String)
    (terms : List String) (u : User) : Bool :=
  terms.all fun t => fields.any (fieldMatches parse now u t)

/-- `DataService.searchUsers(query, fields)`. -/
def DataService.searchUsers (parse : String → Int) (now : Int) (svc : DataService)
    (query : String) (fields : List String) : List User :=
  if query = "" || jsTrim query = "" then svc.users
  else svc.users.filter (userMatches parse now fields (searchTerms query))

/-! ### The record generator

`generateFakeUsers` drives the external faker library: it seeds it once with
the fixed seed `12345` and then, per loop iteration, draws a first name, last
name, email and city, and samples a registration date between 2020-01-01 and
`new Date()` — the wall clock read during that iteration.  The faker library
is external to the repository; it is modelled as a deterministic seeded
pseudo-random generator (its documented contract), with each drawing primitive
advancing the state independently of its arguments and `date.between`
returning a value inside the requested range.  The wall clock is passed in as
the stream `nows`, where `nows j` is the value read during the iteration that
builds record `j + 1`; `toISOString` is modelled as an injective rendering of
the epoch-millisecond timestamp. -/

/-- Model of the faker pseudo-random state transition (LCG step). -/
def fakerNext (s : Nat) : Nat := (s * 1664525 + 1013904223) % 4294967296

/-- Model of `faker.seed(seed)`. -/
def fakerSeed (seed : Nat) : Nat := seed % 4294967296

/-- Pick a word from a fixed table by the current state. -/
def pickWord (xs : List String) (s : Nat) : String := xs.getD (s % xs.length) ""

/-- Fixed word tables of the faker model. -/
def fakerFirstNames : List String :=
  ["Ada", "Grace", "Alan", "Edsger", "Barbara", "Donald", "Tony"]

def fakerLastNames : List String :=
  ["Lovelace", "Hopper", "Turing", "Dijkstra", "Liskov", "Knuth", "Hoare"]

def fakerEmailLocals : List String :=
  ["ada", "grace", "alan", "edsger", "barbara", "donald", "tony"]

def fakerEmailDomains : List String :=
  ["example.com", "mail.test", "sample.org"]

def fakerCities : List String :=
  ["London", "Paris", "Berlin", "Madrid", "Rome", "Vienna", "Oslo"]

/-- `faker.person.firstName()`: value and advanced state. -/
def fakerFirstName (s : Nat) : String × Nat :=
  (pickWord fakerFirstNames (fakerNext s), fakerNext s)

/-- `faker.person.lastName()`. -/
def fakerLastName (s : Nat) : String × Nat :=
  (pickWord fakerLastNames (fakerNext s), fakerNext s)

/-- `faker.internet.email()`: one `@`, non-empty local and domain parts. -/
def fakerEmail (s : Nat) : String × Nat :=
  (pickWord fakerEmailLocals (fakerNext s) ++ "@" ++
    pickWord fakerEmailDomains (fakerNext s), fakerNext s)

/-- `faker.location.city()`. -/
def fakerCity (s : Nat) : String × Nat :=
  (pickWord fakerCities (fakerNext s), fakerNext s)

/-- `faker.date.between({from, to})`: a timestamp in `[lo, hi]` determined by
the state and by both bounds; the state advances independently of the
bounds. -/
def fakerDateBetween (s : Nat) (lo hi : Int) : Int × Nat :=
  (if lo ≤ hi then lo + Int.ofNat (fakerNext s % (hi - lo + 1).toNat) else lo,
   fakerNext s)

/-- Epoch milliseconds of `new Date('2020-01-01')`. -/
def epoch2020 : Int := 1577836800000

/-- Model of `Date.prototype.toISOString`: an injective rendering of the
timestamp. -/
def toISOString (t : Int) : String := toString t

/-- One iteration of the generation loop: the four faker draws, then the date
sampled between 2020-01-01 and `upper` (the `new Date()` of this iteration);
returns the record with id `i` and the faker state for the next iteration. -/
def genRecord (s : Nat) (i : Int) (upper : Int) : User × Nat :=
  let r1 := fakerFirstName s
  let r2 := fakerLastName r1.2
  let r3 := fakerEmail r2.2
  let r4 := fakerCity r3.2
  let r5 := fakerDateBetween r4.2 epoch2020 upper
  ({ id := i, firstName := some r1.1, lastName := some r2.1, email := some r3.1,
     city := some r4.1, registeredDate := some (toISOString r5.1) }, r5.2)

/-- The generation loop `for (let i = 1; i <= count; i++)`, with `k` records
still to produce; the iteration building record `i` reads clock entry
`(i - 1).toNat`. -/
def genUsersFrom (nows : Nat → Int) : Nat → Int → Nat → List User
  | 0, _, _ => []
  | k + 1, i, s =>
    let r := genRecord s i ((nows (i - 1).toNat))
    r.1 :: genUsersFrom nows k (i + 1) r.2

/-- `generateFakeUsers(count)`: seeds faker with `12345` and produces records
`1..count` (a non-positive count produces no iterations, hence `[]`). -/
def generateFakeUsers (nows : Nat → Int) (count : Int) : List User :=
  genUsersFrom nows count.toNat 1 (fakerSeed 12345)

/-! ### Export -/

/-- `User.toPlainObject()`: the ordered key set of the exported record, with
the computed fields resolved.  `fmtDate` is `formatDate` (locale date
formatting via `toLocaleDateString`, an external runtime facility). -/
def toPlainObject (parse : String → Int) (now : Int)
    (fmtDate : Option String → String) (u : User) : List (String × JSVal) :=
  [("id", JSVal.num u.id),
   ("firstName", optStrVal u.firstName),
   ("lastName", optStrVal u.lastName),
   ("fullName", JSVal.str u.fullName),
   ("email", optStrVal u.email),
   ("city", optStrVal u.city),
   ("registeredDate", JSVal.str (fmtDate u.registeredDate)),
   ("daysSinceRegistered", JSVal.num (u.daysSinceRegistered parse now))]

/-- `row[header]` on a plain object. -/
def lookupKV (k : String) : List (String × JSVal) → Option JSVal
  | [] => none
  | kv :: rest => if kv.1 = k then some kv.2 else lookupKV k rest

/-- `value.replace(/"/g, '""')`. -/
def escQuotes (s : String) : String :=
  String.mk (s.data.foldr (fun c acc => if c = '"' then '"' :: '"' :: acc else c :: acc) [])

/-- `value.includes(',') || value.includes('"') || value.includes('\n')`. -/
def hasSpecialCsv (s : String) : Bool :=
  strContainsChar s ',' || strContainsChar s '"' || strContainsChar s '\n'

/-- One CSV cell: `const value = row[header] || ''`, then quote-and-double if
the value is a string containing a comma, double quote or newline, else the
value itself (numbers rendered by `join`). -/
def csvCell (v : JSVal) : String :=
  let value := if jsFalsy v then JSVal.str "" else v
  match value with
  | JSVal.str s => if hasSpecialCsv s then "\"" ++ escQuotes s ++ "\"" else s
  | other => jsValToString other

/-- The cells of one CSV data row, in header order (a missing key reads as
`undefined`, hence as the empty cell). -/
def csvRow (headers : List String) (row : List (String × JSVal)) : List String :=
  headers.map fun h => csvCell ((lookupKV h row).getD JSVal.null)

/-- The CSV branch of `exportUsers`: the `'No data to export'` sentinel for an
empty sequence, else the header row followed by one row per record, rows
joined with `'\n'` and cells with `','`. -/
def exportUsersCsv (parse : String → Int) (now : Int)
    (fmtDate : Option String → String) (users : List User) : String :=
  let userData := users.map (toPlainObject parse now fmtDate)
  match userData with
  | [] => "No data to export"
  | first :: _ =>
    let headers := first.map Prod.fst
    joinSep "\n"
      (joinSep "," headers :: userData.map fun row => joinSep "," (csvRow headers row))

/-- JSON string escaping of one character. -/
def jsonEscapeChar (c : Char) : List Char :=
  if c = '"' then ['\\', '"']
  else if c = '\\' then ['\\', '\\']
  else if c = '\n' then ['\\', 'n']
  else if c = '\r' then ['\\', 'r']
  else if c = '\t' then ['\\', 't']
  else [c]

/-- JSON string escaping. -/
def jsonEscape (s : String) : String :=
  String.mk (s.data.foldr (fun c acc => jsonEscapeChar c ++ acc) [])

/-- A `JSVal` rendered as a JSON value. -/
def jsonValStr : JSVal → String
  | JSVal.null => "null"
  | JSVal.num n => toString n
  | JSVal.str s => "\"" ++ jsonEscape s ++ "\""

/-- One exported record as pretty-printed by `JSON.stringify(·, null, 2)` at
nesting depth 2. -/
def jsonRecord (row : List (String × JSVal)) : String :=
  "    \x7b\n" ++
    joinSep ",\n" (row.map fun kv => "      \"" ++ kv.1 ++ "\": " ++ jsonValStr kv.2) ++
    "\n    \x7d"

/-- The JSON branch of `exportUsers`: `JSON.stringify({exportDate, totalRecords,
data}, null, 2)`, with `exportDate = new Date().toISOString()` passed in as
`nowIso`. -/
def exportUsersJson (parse : String → Int) (now : Int)
    (fmtDate : Option String → String) (nowIso : String) (users : List User) :
    String :=
  let userData := users.map (toPlainObject parse now fmtDate)
  let dataStr :=
    match userData with
    | [] => "[]"
    | _ => "[\n" ++ joinSep ",\n" (userData.map jsonRecord) ++ "\n  ]"
  "\x7b\n  \"exportDate\": \"" ++ jsonEscape nowIso ++ "\",\n  \"totalRecords\": " ++
    toString userData.length ++ ",\n  \"data\": " ++ dataStr ++ "\n\x7d"

/-- `DataService.exportUsers(format, usersToExport)`: CSV or JSON text on the
supported formats, a thrown `Unsupported export format` error otherwise. -/
def DataService.exportUsers (parse : String → Int) (now : Int)
    (fmtDate : Option String → String) (nowIso : String) (svc : DataService)
    (format : String) (usersToExport : Option (List User)) : Except String String :=
  let users := usersToExport.getD svc.users
  if format = "csv" then Except.ok (exportUsersCsv parse now fmtDate users)
  else if format = "json" then Except.ok (exportUsersJson parse now fmtDate nowIso users)
  else Except.error ("Unsupported export format: " ++ format)

/-! ### Statistics -/

/-- The aggregate snapshot of `getUserStats`.  The average is `none` when the
collection is empty (`0/0` is `NaN` in the source). -/
structure UserStats where
  totalUsers : Nat
  avgDaysSinceRegistered : Option Int
  registrationYears : List (Int × Nat)
  topCities : List (String × Nat)
deriving DecidableEq, Repr

/-- `m[k] = (m[k] || 0) + 1` on an insertion-ordered counting map. -/
def bumpKey {κ : Type} [DecidableEq κ] (k : κ) : List (κ × Nat) → List (κ × Nat)
  | [] => [(k, 1)]
  | kv :: rest => if kv.1 = k then (kv.1, kv.2 + 1) :: rest else kv :: bumpKey k rest

/-- Count occurrences, keys in first-encounter order. -/
def countByKey {κ : Type} [DecidableEq κ] (keys : List κ) : List (κ × Nat) :=
  keys.foldl (fun acc k => bumpKey k acc) []

/-- `DataService.getUserStats()`.  `yearOf` is `new Date(·).getFullYear()`
(external calendar arithmetic); `Math.round(sum / total)` is
`⌊(2·sum + total) / (2·total)⌋` for the non-negative values arising here. -/
def getUserStats (parse : String → Int) (now : Int) (yearOf : Option String → Int)
    (users : List User) : UserStats :=
  let totalUsers := users.length
  let sum : Int := (users.map (User.daysSinceRegistered parse now)).foldl (· + ·) 0
  let avg : Option Int :=
    if totalUsers = 0 then none
    else some ((2 * sum + totalUsers) / (2 * totalUsers))
  let years := countByKey (users.map fun u => yearOf u.registeredDate)
  let cities := countByKey (users.map fun u => jsTemplate u.city)
  let top :=
    (cities.insertionSort fun x y => (y.2 : Int) - (x.2 : Int) ≤ 0).take 10
  { totalUsers := totalUsers, avgDaysSinceRegistered := avg,
    registrationYears := years, topCities := top }

/-! ### The methods as state transformers

None of the reading methods assigns to `this.users` or `this.sortCache`; as
state transformers they return the state unchanged, while `sortUsers` may grow
the cache and `clearCache` empties it. -/

/-- `getUsers()` as a state transformer. -/
def DataService.getUsersM (svc : DataService) : List User × DataService :=
  (svc.users, svc)

/-- `searchUsers` as a state transformer. -/
def DataService.searchUsersM (parse : String → Int) (now : Int) (svc : DataService)
    (query : String) (fields : List String) : List User × DataService :=
  (svc.searchUsers parse now query fields, svc)

/-- `exportUsers` as a state transformer. -/
def DataService.exportUsersM (parse : String → Int) (now : Int)
    (fmtDate : Option String → String) (nowIso : String) (svc : DataService)
    (format : String) (usersToExport : Option (List User)) :
    Except String String × DataService :=
  (svc.exportUsers parse now fmtDate nowIso format usersToExport, svc)

/-- `getUserStats` as a state transformer. -/
def DataService.getUserStatsM (parse : String → Int) (now : Int)
    (yearOf : Option String → Int) (svc : DataService) :
    UserStats × DataService :=
  (getUserStats parse now yearOf svc.users, svc)

/-! ### Search as the specification words it -/

/-- Split a character list at every character satisfying `p`. -/
def splitPredChar (p : Char → Bool) : List Char → List (List Char)
  | [] => [[]]
  | a :: as =>
    if p a then [] :: splitPredChar p as
    else
      match splitPredChar p as with
      | [] => [[a]]
      | q :: qs => (a :: q) :: qs

/-- Modelled from the spec: the query "split on whitespace into terms" —
terms are delimited by any whitespace character, not only by the space
character used by the source's `split(' ')`. -/
def specSearchTerms (query : String) : List String :=
  ((splitPredChar Char.isWhitespace (jsTrim (jsToLower query)).data).map
    String.mk).filter (fun t => t.length > 0)

/-- Modelled from the spec: `searchUsers` as the spec describes it, with
whitespace-delimited terms (match semantics as in the source). -/
def specSearchUsers (parse : String → Int) (now : Int) (users : List User)
    (query : String) (fields : List String) : List User :=
  if jsTrim query = "" then users
  else users.filter (userMatches parse now fields (specSearchTerms query))

/-! ### Concrete data for witnesses and counterexamples -/

/-- Trivial date parser for concrete instances. -/
def p0 : String → Int := fun _ => 0

/-- Trivial date formatter for concrete instances. -/
def fmt0 : Option String → String := fun _ => "Jan 1, 2020"

/-- A record whose `firstName` and `city` match the two halves of a
tab-separated query. -/
def demoUserAB : User :=
  { id := 1, firstName := some "alpha", lastName := some "x",
    email := some "x@y.z", city := some "beta", registeredDate := some "0" }

/-- A service holding only `demoUserAB`, with an empty cache. -/
def svcAB : DataService := { users := [demoUserAB], sortCache := [] }

section SanityChecks

example : jsFalsy (JSVal.num 0) = true := by decide
example : strCmp "abc" "abd" = -1 := by decide
example : searchTerms "  Hello   World " = ["hello", "world"] := by decide
example : jsIncludes "hello world" "lo w" = true := by decide
example : cacheKey "city" "asc" 500 = "city-asc-500" := by decide
example : csvCell (JSVal.str "Smith, \"Lake\" City") = "\"Smith, \"\"Lake\"\" City\"" := by decide
example : csvCell (JSVal.num 0) = "" := by decide
example : (generateFakeUsers (fun _ => epoch2020) (-3)) = [] := by decide

end SanityChecks

/-! ### Order facts about the lexicographic string comparison -/

theorem charListLt_asymm : ∀ x y : List Char,
    charListLt x y = true → charListLt y x = false := by
  intro x
  induction x with
  | nil =>
    intro y h
    cases y with
    | nil => simp [charListLt] at h
    | cons b bs => simp [charListLt]
  | cons a as ih =>
    intro y h
    cases y with
    | nil => simp [charListLt] at h
    | cons b bs =>
      simp only [charListLt, Bool.or_eq_true, Bool.and_eq_true,
        decide_eq_true_eq] at h
      rcases h with hlt | ⟨heq, htail⟩
      · have h1 : ¬ b < a := lt_asymm hlt
        have h2 : ¬ b = a := (ne_of_gt hlt)
        simp [charListLt, h1, h2]
      · subst heq
        have h3 := ih bs htail
        simp [charListLt, h3]

theorem charListLt_trans : ∀ x y z : List Char,
    charListLt x y = true → charListLt y z = true → charListLt x z = true := by
  intro x
  induction x with
  | nil =>
    intro y z h1 h2
    cases z with
    | nil =>
      cases y with
      | nil => simp [charListLt] at h1
      | cons b bs => simp [charListLt] at h2
    | cons c cs => simp [charListLt]
  | cons a as ih =>
    intro y z h1 h2
    cases y with
    | nil => simp [charListLt] at h1
    | cons b bs =>
      cases z with
      | nil => simp [charListLt] at h2
      | cons c cs =>
        simp only [charListLt, Bool.or_eq_true, Bool.and_eq_true,
          decide_eq_true_eq] at h1 h2 ⊢
        rcases h1 with hab | ⟨hab, htab⟩ <;> rcases h2 with hbc | ⟨hbc, htbc⟩
        · exact Or.inl (lt_trans hab hbc)
        · exact Or.inl (hbc ▸ hab)
        · exact Or.inl (hab ▸ hbc)
        · exact Or.inr ⟨hab.trans hbc, ih bs cs htab htbc⟩

theorem charListLt_connex : ∀ x y : List Char,
    charListLt x y = false → charListLt y x = false → x = y := by
  intro x
  induction x with
  | nil =>
    intro y h1 _
    cases y with
    | nil => rfl
    | cons b bs => simp [charListLt] at h1
  | cons a as ih =>
    intro y h1 h2
    cases y with
    | nil => simp [charListLt] at h2
    | cons b bs =>
      simp only [charListLt, Bool.or_eq_false_iff, Bool.and_eq_false_iff,
        decide_eq_false_iff_not] at h1 h2
      obtain ⟨hab, hab2⟩ := h1
      obtain ⟨hba, hba2⟩ := h2
      have heq : a = b := le_antisymm (not_lt.mp hba) (not_lt.mp hab)
      subst heq
      have htail : as = bs := by
        rcases hab2 with h | h
        · exact absurd rfl h
        · rcases hba2 with h' | h'
          · exact absurd rfl h'
          · exact ih bs h h'
      rw [htail]

/-- `le` form of the lexicographic order is transitive. -/
theorem charListLt_le_trans {x y z : List Char}
    (h1 : charListLt y x = false) (h2 : charListLt z y = false) :
    charListLt z x = false := by
  by_contra h
  have hzx : charListLt z x = true := by
    cases hwhole : charListLt z x
    · exact absurd hwhole h
    · rfl
  cases hxy : charListLt x y with
  | true =>
    have : charListLt z y = true := charListLt_trans z x y hzx hxy
    simp [this] at h2
  | false =>
    have : x = y := charListLt_connex x y hxy h1
    subst this
    simp [hzx] at h2

theorem strCmp_nonpos_iff (x y : String) :
    strCmp x y ≤ 0 ↔ strLt y x = false := by
  unfold strCmp
  cases h : strLt y x with
  | true => simp [h]
  | false => simp [h]; split_ifs <;> omega

theorem strCmp_total (x y : String) : strCmp x y ≤ 0 ∨ strCmp y x ≤ 0 := by
  rw [strCmp_nonpos_iff, strCmp_nonpos_iff]
  cases h : strLt y x with
  | false => exact Or.inl rfl
  | true => exact Or.inr (charListLt_asymm _ _ h)

theorem strCmp_le_trans {x y z : String}
    (h1 : strCmp x y ≤ 0) (h2 : strCmp y z ≤ 0) : strCmp x z ≤ 0 := by
  rw [strCmp_nonpos_iff] at h1 h2 ⊢
  exact charListLt_le_trans h1 h2

/-! ### The sort comparator is a total preorder on each field -/

/-- The two fields whose sort values are numbers. -/
def numericSortField (field : String) : Bool :=
  decide (field = "daysSinceRegistered") || decide (field = "id")

/-- For a fixed field, `getSortValue` returns numbers for every user or for
none: the comparator never sees a number/string mixed pair. -/
theorem getSortValue_types (parse : String → Int) (now : Int) (field : String) :
    (∀ u : User, (getSortValue parse now u field).isNum = true) ∨
    (∀ u : User, (getSortValue parse now u field).isNum = false) := by
  by_cases h1 : field = "fullName"
  · right; intro u; simp [getSortValue, h1, JSVal.isNum]
  by_cases h2 : field = "daysSinceRegistered"
  · left; intro u; simp [getSortValue, h1, h2, JSVal.isNum]
  by_cases h3 : field = "id"
  · left; intro u; simp [getSortValue, h1, h2, h3, JSVal.isNum]
  by_cases h4 : field = "firstName"
  · right; intro u
    simp only [getSortValue, h1, h2, h3, h4, if_false, if_true, if_neg, if_pos]
    cases u.firstName <;> simp [optStrVal, JSVal.isNum]
  by_cases h5 : field = "lastName"
  · right; intro u
    simp only [getSortValue, h1, h2, h3, h4, h5, if_false, if_true, if_neg, if_pos]
    cases u.lastName <;> simp [optStrVal, JSVal.isNum]
  by_cases h6 : field = "email"
  · right; intro u
    simp only [getSortValue, h1, h2, h3, h4, h5, h6, if_false, if_true, if_neg, if_pos]
    cases u.email <;> simp [optStrVal, JSVal.isNum]
  by_cases h7 : field = "city"
  · right; intro u
    simp only [getSortValue, h1, h2, h3, h4, h5, h6, h7, if_false, if_true, if_neg, if_pos]
    cases u.city <;> simp [optStrVal, JSVal.isNum]
  by_cases h8 : field = "registeredDate"
  · right; intro u
    simp only [getSortValue, h1, h2, h3, h4, h5, h6, h7, h8, if_false, if_true,
      if_neg, if_pos]
    cases u.registeredDate <;> simp [optStrVal, JSVal.isNum]
  · right; intro u
    simp [getSortValue, h1, h2, h3, h4, h5, h6, h7, h8, JSVal.isNum]

theorem isNum_eq {v : JSVal} (h : v.isNum = true) : ∃ n, v = JSVal.num n := by
  cases v <;> simp [JSVal.isNum] at h ⊢

theorem isNum_ne {v : JSVal} (h : v.isNum = false) :
    v = JSVal.null ∨ ∃ s, v = JSVal.str s := by
  cases v <;> simp [JSVal.isNum] at h ⊢

/-- Totality of the comparator-induced relation. -/
theorem userLE_total (parse : String → Int) (now : Int) (field direction : String)
    (a b : User) :
    (userLE parse now field direction a b || userLE parse now field direction b a) = true := by
  unfold userLE compareUsers
  simp only [Bool.or_eq_true, decide_eq_true_eq]
  rcases getSortValue parse now a field with _ | x | x <;>
    rcases getSortValue parse now b field with _ | y | y <;>
      simp only [valCompare] <;>
      first
        | omega
        | (split_ifs <;>
            first
              | omega
              | exact strCmp_total _ _)

/-- Transitivity of the comparator-induced relation (per field, using that a
field's sort values are never number/string mixed). -/
theorem userLE_trans (parse : String → Int) (now : Int) (field direction : String)
    (a b c : User)
    (h1 : userLE parse now field direction a b = true)
    (h2 : userLE parse now field direction b c = true) :
    userLE parse now field direction a c = true := by
  unfold userLE compareUsers at h1 h2 ⊢
  simp only [decide_eq_true_eq] at h1 h2 ⊢
  rcases getSortValue_types parse now field with hnum | hnum
  · obtain ⟨x, hx⟩ := isNum_eq (hnum a)
    obtain ⟨y, hy⟩ := isNum_eq (hnum b)
    obtain ⟨z, hz⟩ := isNum_eq (hnum c)
    rw [hx, hy] at h1
    rw [hy, hz] at h2
    rw [hx, hz]
    simp only [valCompare] at h1 h2 ⊢
    split_ifs at h1 h2 ⊢ <;> omega
  · rcases isNum_ne (hnum a) with ha | ⟨x, hx⟩ <;>
      rcases isNum_ne (hnum b) with hb | ⟨y, hy⟩ <;>
        rcases isNum_ne (hnum c) with hc | ⟨z, hz⟩ <;>
          simp_all only [] <;>
          simp only [valCompare] at h1 h2 ⊢ <;>
          split_ifs at h1 h2 ⊢ <;>
          first
            | omega
            | exact strCmp_le_trans h1 h2
            | exact strCmp_le_trans h2 h1

/-! ### The sorting routine: permutation, stability, sortedness -/

theorem sortList_perm (parse : String → Int) (now : Int) (field direction : String)
    (l : List User) : (sortList parse now field direction l).Perm l :=
  List.perm_insertionSort _ l

theorem sortList_length (parse : String → Int) (now : Int) (field direction : String)
    (l : List User) : (sortList parse now field direction l).length = l.length :=
  (sortList_perm parse now field direction l).length_eq

theorem sortList_stable_pair (parse : String → Int) (now : Int)
    (field direction : String) {a b : User} {l : List User}
    (hab : userLE parse now field direction a b = true)
    (h : [a, b].Sublist l) :
    [a, b].Sublist (sortList parse now field direction l) :=
  List.pair_sublist_insertionSort hab h

theorem sortList_sorted (parse : String → Int) (now : Int)
    (field direction : String) (l : List User) :
    (sortList parse now field direction l).Pairwise
      (fun a b => userLE parse now field direction a b = true) := by
  haveI : IsTotal User (fun a b => userLE parse now field direction a b = true) :=
    ⟨fun a b => by
      have h := userLE_total parse now field direction a b
      simpa using h⟩
  haveI : IsTrans User (fun a b => userLE parse now field direction a b = true) :=
    ⟨fun a b c => userLE_trans parse now field direction a b c⟩
  exact List.sorted_insertionSort _ l

/-! ### Cache keys are unambiguous for the two directions -/

theorem cacheKey_data (f d : String) (n : Nat) :
    (cacheKey f d n).data =
      (((f.data ++ ['-']) ++ d.data) ++ ['-']) ++ (toString n).data := rfl

/-- For directions in `{asc, desc}`, equal cache keys (at the same collection
length) come from the same field and direction. -/
theorem cacheKey_inj {f f' d d' : String} {n : Nat}
    (hd : d = "asc" ∨ d = "desc") (hd' : d' = "asc" ∨ d' = "desc")
    (h : cacheKey f d n = cacheKey f' d' n) : f = f' ∧ d = d' := by
  have hl : (cacheKey f d n).data = (cacheKey f' d' n).data := congrArg String.data h
  rw [cacheKey_data, cacheKey_data] at hl
  rcases hd with rfl | rfl <;> rcases hd' with rfl | rfl
  · refine ⟨?_, rfl⟩
    simp only [List.append_assoc, List.cons_append, List.nil_append,
      show ("asc" : String).data = ['a', 's', 'c'] from rfl] at hl
    exact String.toList_inj.mp (List.append_cancel_right hl)
  · exfalso
    have h2 := congrArg List.reverse hl
    simp only [List.reverse_append, List.reverse_cons, List.reverse_nil,
      List.append_assoc, List.cons_append, List.nil_append,
      show ("asc" : String).data = ['a', 's', 'c'] from rfl,
      show ("desc" : String).data = ['d', 'e', 's', 'c'] from rfl] at h2
    have h3 := List.append_cancel_left h2
    simp at h3
  · exfalso
    have h2 := congrArg List.reverse hl
    simp only [List.reverse_append, List.reverse_cons, List.reverse_nil,
      List.append_assoc, List.cons_append, List.nil_append,
      show ("asc" : String).data = ['a', 's', 'c'] from rfl,
      show ("desc" : String).data = ['d', 'e', 's', 'c'] from rfl] at h2
    have h3 := List.append_cancel_left h2
    simp at h3
  · refine ⟨?_, rfl⟩
    simp only [List.append_assoc, List.cons_append, List.nil_append,
      show ("desc" : String).data = ['d', 'e', 's', 'c'] from rfl] at hl
    exact String.toList_inj.mp (List.append_cancel_right hl)

/-! ### Cache map lemmas and `sortUsers` unfolding -/

theorem mapGet_mem {k : String} {v : List User} :
    ∀ {c : List (String × List User)}, mapGet k c = some v → (k, v) ∈ c := by
  intro c
  induction c with
  | nil => intro h; simp [mapGet] at h
  | cons kv rest ih =>
    intro h
    simp only [mapGet] at h
    split_ifs at h with hk
    · have hv : kv.2 = v := Option.some.inj h
      apply List.mem_cons.mpr
      left
      rw [← hk, ← hv]
    · exact List.mem_cons_of_mem _ (ih h)

theorem mapSet_of_none {k : String} {v : List User} :
    ∀ {c : List (String × List User)}, mapGet k c = none →
      mapSet k v c = c ++ [(k, v)] := by
  intro c
  induction c with
  | nil => intro _; rfl
  | cons kv rest ih =>
    intro h
    simp only [mapGet] at h
    split_ifs at h with hk
    simp only [mapSet, if_neg hk, List.cons_append, List.cons.injEq, true_and]
    exact ih h

theorem mapSet_length_le (k : String) (v : List User) :
    ∀ c : List (String × List User), (mapSet k v c).length ≤ c.length + 1 := by
  intro c
  induction c with
  | nil => simp [mapSet]
  | cons kv rest ih =>
    simp only [mapSet]
    split_ifs with hk
    · simp
    · simpa using Nat.succ_le_succ ih

theorem sortUsers_subset (parse : String → Int) (now : Int) (svc : DataService)
    (f d : String) (us : List User) :
    svc.sortUsers parse now f d (some us) = (sortList parse now f d us, svc) := rfl

theorem sortUsers_full_hit (parse : String → Int) (now : Int) (svc : DataService)
    (f d : String) (cached : List User)
    (h : mapGet (cacheKey f d svc.users.length) svc.sortCache = some cached) :
    svc.sortUsers parse now f d none = (cached, svc) := by
  unfold DataService.sortUsers
  simp only [Option.getD_none, h]

theorem sortUsers_full_miss (parse : String → Int) (now : Int) (svc : DataService)
    (f d : String)
    (h : mapGet (cacheKey f d svc.users.length) svc.sortCache = none) :
    svc.sortUsers parse now f d none =
      (sortList parse now f d svc.users,
       { svc with sortCache :=
           let c1 := mapSet (cacheKey f d svc.users.length)
             (sortList parse now f d svc.users) svc.sortCache
           if c1.length > 20 then c1.tail else c1 }) := by
  unfold DataService.sortUsers
  simp only [Option.getD_none, h]

/-! ### Reachable service states: the cache invariant -/

/-- The two direction strings the table issues. -/
def GoodDir (d : String) : Prop := d = "asc" ∨ d = "desc"

/-- Requests whose direction argument is one of the two directions. -/
def GoodReq : SortRequest → Prop
  | SortRequest.full _ d => GoodDir d
  | SortRequest.subset _ _ _ => True

/-- Every cache entry is the stored collection sorted under its key. -/
def CacheOK (parse : String → Int) (now : Int) (svc : DataService) : Prop :=
  ∀ kv ∈ svc.sortCache, ∃ f d, GoodDir d ∧
    kv.1 = cacheKey f d svc.users.length ∧
    kv.2 = sortList parse now f d svc.users

theorem sortUsers_users (parse : String → Int) (now : Int) (svc : DataService)
    (f d : String) (uts : Option (List User)) :
    ((svc.sortUsers parse now f d uts).2).users = svc.users := by
  cases uts with
  | some us => rw [sortUsers_subset]
  | none =>
    cases hm : mapGet (cacheKey f d svc.users.length) svc.sortCache with
    | some cached => rw [sortUsers_full_hit parse now svc f d cached hm]
    | none => rw [sortUsers_full_miss parse now svc f d hm]

theorem applyRequest_users (parse : String → Int) (now : Int) (svc : DataService)
    (r : SortRequest) : (applyRequest parse now svc r).users = svc.users := by
  cases r <;> exact sortUsers_users parse now svc _ _ _

theorem runRequests_users (parse : String → Int) (now : Int) (svc : DataService)
    (rs : List SortRequest) : (runRequests parse now svc rs).users = svc.users := by
  induction rs generalizing svc with
  | nil => rfl
  | cons r rs ih =>
    rw [runRequests, ih, applyRequest_users]

theorem cacheOK_applyRequest (parse : String → Int) (now : Int)
    {svc : DataService} {r : SortRequest}
    (hok : CacheOK parse now svc) (hr : GoodReq r) :
    CacheOK parse now (applyRequest parse now svc r) := by
  cases r with
  | subset f d us =>
    show CacheOK parse now ((svc.sortUsers parse now f d (some us)).2)
    rw [sortUsers_subset]
    exact hok
  | full f d =>
    show CacheOK parse now ((svc.sortUsers parse now f d none).2)
    cases hm : mapGet (cacheKey f d svc.users.length) svc.sortCache with
    | some cached =>
      rw [sortUsers_full_hit parse now svc f d cached hm]
      exact hok
    | none =>
      rw [sortUsers_full_miss parse now svc f d hm]
      intro kv hkv
      simp only [mapSet_of_none hm] at hkv
      have hkv2 : kv ∈ svc.sortCache ++
          [(cacheKey f d svc.users.length, sortList parse now f d svc.users)] := by
        split_ifs at hkv with hlen
        · exact (List.tail_sublist _).subset hkv
        · exact hkv
      rcases List.mem_append.mp hkv2 with hmem | hnew
      · obtain ⟨f', d', hd', hkey, hval⟩ := hok kv hmem
        exact ⟨f', d', hd', hkey, hval⟩
      · have : kv = (cacheKey f d svc.users.length, sortList parse now f d svc.users) := by
          simpa using hnew
        subst this
        exact ⟨f, d, hr, rfl, rfl⟩

theorem cacheOK_runRequests (parse : String → Int) (now : Int)
    {svc : DataService} {rs : List SortRequest}
    (hok : CacheOK parse now svc) (hrs : ∀ r ∈ rs, GoodReq r) :
    CacheOK parse now (runRequests parse now svc rs) := by
  induction rs generalizing svc with
  | nil => exact hok
  | cons r rs ih =>
    rw [runRequests]
    exact ih (cacheOK_applyRequest parse now hok (hrs r (by simp)))
      (fun r' hr' => hrs r' (by simp [hr']))

theorem cacheOK_init (parse : String → Int) (now : Int) (users : List User) :
    CacheOK parse now { users := users, sortCache := [] } := by
  intro kv hkv
  simp at hkv

/-- On a state whose cache satisfies the invariant, `sortUsers` returns
exactly the stable comparator sort of its input, cache hit or not. -/
theorem sortUsers_result (parse : String → Int) (now : Int)
    {svc : DataService} {field direction : String}
    (usersToSort : Option (List User))
    (hok : CacheOK parse now svc) (hdir : GoodDir direction) :
    (svc.sortUsers parse now field direction usersToSort).1 =
      sortList parse now field direction (usersToSort.getD svc.users) := by
  cases usersToSort with
  | some us => rw [sortUsers_subset]; rfl
  | none =>
    cases hm : mapGet (cacheKey field direction svc.users.length) svc.sortCache with
    | none => rw [sortUsers_full_miss parse now svc field direction hm]; rfl
    | some cached =>
      rw [sortUsers_full_hit parse now svc field direction cached hm]
      obtain ⟨f', d', hd', hkey, hval⟩ := hok _ (mapGet_mem hm)
      dsimp only at hkey hval
      obtain ⟨hf, hd2⟩ := cacheKey_inj hdir hd' hkey
      simp only [Option.getD_none]
      rw [hval, ← hf, ← hd2]

/-- The service as constructed (`loadUsers` collection, empty cache) after an
arbitrary sequence of `sortUsers` requests. -/
def serviceAfter (parse : String → Int) (now : Int) (users : List User)
    (reqs : List SortRequest) : DataService :=
  runRequests parse now { users := users, sortCache := [] } reqs

/-- What one further `sortUsers` call on such a service returns. -/
def sortedOutput (parse : String → Int) (now : Int) (users : List User)
    (reqs : List SortRequest) (field direction : String)
    (usersToSort : Option (List User)) : List User :=
  ((serviceAfter parse now users reqs).sortUsers parse now field direction usersToSort).1

theorem sortedOutput_eq (parse : String → Int) (now : Int) (users : List User)
    (reqs : List SortRequest) (field direction : String)
    (usersToSort : Option (List User))
    (hdir : GoodDir direction) (hreqs : ∀ r ∈ reqs, GoodReq r) :
    sortedOutput parse now users reqs field direction usersToSort =
      sortList parse now field direction (usersToSort.getD users) := by
  unfold sortedOutput serviceAfter
  have hok := cacheOK_runRequests parse now (cacheOK_init parse now users) hreqs
  rw [sortUsers_result parse now usersToSort hok hdir,
    runRequests_users parse now _ reqs]

/-- Under the ascending comparator, nothing non-null follows a null key. -/
theorem null_le_forces_null (parse : String → Int) (now : Int) (field : String)
    {a b : User} (h : userLE parse now field "asc" a b = true)
    (ha : getSortValue parse now a field = JSVal.null) :
    getSortValue parse now b field = JSVal.null := by
  unfold userLE compareUsers at h
  rw [ha] at h
  simp only [decide_eq_true_eq] at h
  cases hb : getSortValue parse now b field with
  | null => rfl
  | num y => rw [hb] at h; simp [valCompare] at h
  | str s => rw [hb] at h; simp [valCompare] at h

/-- Under the descending comparator, nothing null follows a non-null key. -/
theorem null_ge_forces_null (parse : String → Int) (now : Int) (field : String)
    {a b : User} (h : userLE parse now field "desc" a b = true)
    (hb : getSortValue parse now b field = JSVal.null) :
    getSortValue parse now a field = JSVal.null := by
  unfold userLE compareUsers at h
  rw [hb] at h
  simp only [decide_eq_true_eq] at h
  cases ha : getSortValue parse now a field with
  | null => rfl
  | num y => rw [ha] at h; simp [valCompare] at h
  | str s => rw [ha] at h; simp [valCompare] at h

/-! ### Users for the concrete witness instances -/

def uW1 : User :=
  { id := 1, firstName := some "Ann", lastName := some "Abel",
    email := some "a@a.aa", city := some "Rome", registeredDate := some "1" }

def uW2 : User :=
  { id := 2, firstName := some "Bob", lastName := some "Baer",
    email := some "b@b.bb", city := some "Rome", registeredDate := some "2" }

def uW3 : User :=
  { id := 3, firstName := some "Cyd", lastName := some "Carr",
    email := some "c@c.cc", city := some "Oslo", registeredDate := some "3" }

/-- Like `uW3`, but with a null city. -/
def uWnull : User :=
  { id := 4, firstName := some "Dee", lastName := some "Dorr",
    email := some "d@d.dd", city := none, registeredDate := some "4" }

/-! ### Claim C1 -/

/-- C1: for every field, both directions, and every input sequence (the full
collection of a service reached by any request history, or a caller-supplied
subset), `sortUsers` returns a permutation of the input of equal length, and
elements whose sort keys compare equal retain their original relative
order. -/
theorem claim_C1_sort_perm_stable
    (parse : String → Int) (now : Int) (field direction : String)
    (users : List User) (reqs : List SortRequest)
    (usersToSort : Option (List User))
    (hdir : GoodDir direction) (hreqs : ∀ r ∈ reqs, GoodReq r) :
    (sortedOutput parse now users reqs field direction usersToSort).Perm
        (usersToSort.getD users)
    ∧ (sortedOutput parse now users reqs field direction usersToSort).length =
        (usersToSort.getD users).length
    ∧ ∀ a b : User, [a, b].Sublist (usersToSort.getD users) →
        compareUsers parse now field direction a b = 0 →
        [a, b].Sublist (sortedOutput parse now users reqs field direction usersToSort) := by
  rw [sortedOutput_eq parse now users reqs field direction usersToSort hdir hreqs]
  refine ⟨sortList_perm parse now field direction _,
    sortList_length parse now field direction _, ?_⟩
  intro a b hsub hcmp
  apply sortList_stable_pair parse now field direction ?_ hsub
  unfold userLE
  rw [hcmp]
  decide

/-- Witness for C1 at a concrete service: sorting three users by city
ascending is a permutation, and the two equal-key users keep their order. -/
theorem claim_C1_sort_perm_stable_witness :
    (sortedOutput p0 0 [uW1, uW2, uW3] [] "city" "asc" none).Perm [uW1, uW2, uW3]
    ∧ [uW1, uW2].Sublist (sortedOutput p0 0 [uW1, uW2, uW3] [] "city" "asc" none) := by
  have h := claim_C1_sort_perm_stable p0 0 "city" "asc" [uW1, uW2, uW3] [] none
    (Or.inl rfl) (by simp)
  exact ⟨h.1, h.2.2 uW1 uW2 (by decide) (by decide)⟩

/-! ### Claim C7 -/

/-- Ascending: in the sorted list, positions at or after a null key are null. -/
theorem sortList_null_suffix (parse : String → Int) (now : Int) (field : String)
    (l : List User) (i j : Nat)
    (hi : i < (sortList parse now field "asc" l).length)
    (hj : j < (sortList parse now field "asc" l).length) (hij : i ≤ j)
    (hnull : getSortValue parse now ((sortList parse now field "asc" l).get ⟨i, hi⟩)
      field = JSVal.null) :
    getSortValue parse now ((sortList parse now field "asc" l).get ⟨j, hj⟩) field =
      JSVal.null := by
  rcases Nat.lt_or_ge i j with hlt | hge
  · have hp := sortList_sorted parse now field "asc" l
    rw [List.pairwise_iff_getElem] at hp
    exact null_le_forces_null parse now field (hp i j hi hj hlt) hnull
  · have : i = j := le_antisymm hij hge
    subst this
    exact hnull

/-- Descending: in the sorted list, positions at or before a null key are
null. -/
theorem sortList_null_prefix (parse : String → Int) (now : Int) (field : String)
    (l : List User) (i j : Nat)
    (hi : i < (sortList parse now field "desc" l).length)
    (hj : j < (sortList parse now field "desc" l).length) (hij : i ≤ j)
    (hnull : getSortValue parse now ((sortList parse now field "desc" l).get ⟨j, hj⟩)
      field = JSVal.null) :
    getSortValue parse now ((sortList parse now field "desc" l).get ⟨i, hi⟩) field =
      JSVal.null := by
  rcases Nat.lt_or_ge i j with hlt | hge
  · have hp := sortList_sorted parse now field "desc" l
    rw [List.pairwise_iff_getElem] at hp
    exact null_ge_forces_null parse now field (hp i j hi hj hlt) hnull
  · have : i = j := le_antisymm hij hge
    subst this
    exact hnull

/-- C7: records whose sort-field value is null or undefined come after every
record with a non-null value when sorting ascending, and before every such
record when sorting descending (stated positionally: ascending, null keys form
a suffix of the output; descending, a prefix). -/
theorem claim_C7_null_ordering
    (parse : String → Int) (now : Int) (field : String)
    (users : List User) (reqs : List SortRequest)
    (usersToSort : Option (List User))
    (hreqs : ∀ r ∈ reqs, GoodReq r) :
    (∀ (i j : Nat)
      (hi : i < (sortedOutput parse now users reqs field "asc" usersToSort).length)
      (hj : j < (sortedOutput parse now users reqs field "asc" usersToSort).length),
      i ≤ j →
      getSortValue parse now
        ((sortedOutput parse now users reqs field "asc" usersToSort).get ⟨i, hi⟩)
        field = JSVal.null →
      getSortValue parse now
        ((sortedOutput parse now users reqs field "asc" usersToSort).get ⟨j, hj⟩)
        field = JSVal.null)
    ∧ (∀ (i j : Nat)
      (hi : i < (sortedOutput parse now users reqs field "desc" usersToSort).length)
      (hj : j < (sortedOutput parse now users reqs field "desc" usersToSort).length),
      i ≤ j →
      getSortValue parse now
        ((sortedOutput parse now users reqs field "desc" usersToSort).get ⟨j, hj⟩)
        field = JSVal.null →
      getSortValue parse now
        ((sortedOutput parse now users reqs field "desc" usersToSort).get ⟨i, hi⟩)
        field = JSVal.null) := by
  constructor
  · rw [sortedOutput_eq parse now users reqs field "asc" usersToSort (Or.inl rfl) hreqs]
    exact sortList_null_suffix parse now field _
  · rw [sortedOutput_eq parse now users reqs field "desc" usersToSort (Or.inr rfl) hreqs]
    exact sortList_null_prefix parse now field _

/-! ### Claim C3 -/

/-- A cache filled with 20 unrelated entries, for the eviction instance. -/
def cache20 : List (String × List User) :=
  (List.range 20).map fun i => (toString i, [])

/-- A service whose cache is full. -/
def svc20 : DataService := { users := [], sortCache := cache20 }

/-- C3: after any sequence of `sortUsers` calls the cache holds at most 20
entries; a call on a caller-supplied subset leaves the whole state untouched;
and a full-collection miss on a full cache appends the new keyed result and
evicts the oldest (first-inserted) entry. -/
theorem claim_C3_cache_bound (parse : String → Int) (now : Int) :
    (∀ (svc : DataService) (reqs : List SortRequest),
      svc.sortCache.length ≤ 20 →
      (runRequests parse now svc reqs).sortCache.length ≤ 20)
    ∧ (∀ (svc : DataService) (f d : String) (us : List User),
      (svc.sortUsers parse now f d (some us)).2 = svc)
    ∧ (∀ (svc : DataService) (f d : String),
      mapGet (cacheKey f d svc.users.length) svc.sortCache = none →
      svc.sortCache.length = 20 →
      (svc.sortUsers parse now f d none).2.sortCache =
        svc.sortCache.tail ++
          [(cacheKey f d svc.users.length, sortList parse now f d svc.users)]) := by
  have step : ∀ (svc : DataService) (r : SortRequest),
      svc.sortCache.length ≤ 20 →
      (applyRequest parse now svc r).sortCache.length ≤ 20 := by
    intro svc r h
    cases r with
    | subset f d us =>
      show (((svc.sortUsers parse now f d (some us)).2)).sortCache.length ≤ 20
      rw [sortUsers_subset]
      exact h
    | full f d =>
      show (((svc.sortUsers parse now f d none).2)).sortCache.length ≤ 20
      cases hm : mapGet (cacheKey f d svc.users.length) svc.sortCache with
      | some c =>
        rw [sortUsers_full_hit parse now svc f d c hm]
        exact h
      | none =>
        rw [sortUsers_full_miss parse now svc f d hm]
        have hle := mapSet_length_le (cacheKey f d svc.users.length)
          (sortList parse now f d svc.users) svc.sortCache
        simp only
        split_ifs with hgt
        · rw [List.length_tail]; omega
        · omega
  refine ⟨?_, ?_, ?_⟩
  · intro svc reqs h
    induction reqs generalizing svc with
    | nil => exact h
    | cons r rs ih => exact ih _ (step svc r h)
  · intro svc f d us
    exact congrArg Prod.snd (sortUsers_subset parse now svc f d us)
  · intro svc f d hm hlen
    rw [sortUsers_full_miss parse now svc f d hm]
    simp only [mapSet_of_none hm]
    have h21 : (svc.sortCache ++
        [(cacheKey f d svc.users.length, sortList parse now f d svc.users)]).length = 21 := by
      simp [hlen]
    split_ifs with hgt
    · cases hc : svc.sortCache with
      | nil => rw [hc] at hlen; simp at hlen
      | cons kv rest => rfl
    · rw [h21] at hgt; omega

/-- Witness for C3: one full-collection request from an empty cache stays
within the bound; a subset call leaves the state unchanged; a miss on a
20-entry cache appends the entry and drops the oldest. -/
theorem claim_C3_cache_bound_witness :
    (runRequests p0 0 svcAB [SortRequest.full "city" "asc"]).sortCache.length ≤ 20
    ∧ (svcAB.sortUsers p0 0 "city" "asc" (some [])).2 = svcAB
    ∧ (svc20.sortUsers p0 0 "city" "asc" none).2.sortCache =
        svc20.sortCache.tail ++ [(cacheKey "city" "asc" 0, sortList p0 0 "city" "asc" [])] := by
  refine ⟨(claim_C3_cache_bound p0 0).1 svcAB _ (by decide),
    (claim_C3_cache_bound p0 0).2.1 svcAB "city" "asc" [],
    ?_⟩
  have h := (claim_C3_cache_bound p0 0).2.2 svc20 "city" "asc" (by decide) (by decide)
  exact h

/-! ### Claim C9 -/

/-- C9: no Data Service operation mutates the stored collection: `sortUsers`
can only touch the cache, `searchUsers`, `exportUsers` and `getUserStats`
leave the whole state unchanged, `clearCache` only empties the cache, and any
request history leaves the collection as constructed. -/
theorem claim_C9_no_mutation (parse : String → Int) (now : Int)
    (fmtDate : Option String → String) (nowIso : String)
    (yearOf : Option String → Int) :
    (∀ (svc : DataService) (f d : String) (uts : Option (List User)),
      ((svc.sortUsers parse now f d uts).2).users = svc.users)
    ∧ (∀ (svc : DataService) (q : String) (fs : List String),
      (svc.searchUsersM parse now q fs).2 = svc)
    ∧ (∀ (svc : DataService) (fmt : String) (ute : Option (List User)),
      (svc.exportUsersM parse now fmtDate nowIso fmt ute).2 = svc)
    ∧ (∀ svc : DataService, (svc.getUserStatsM parse now yearOf).2 = svc)
    ∧ (∀ svc : DataService, (svc.clearCache).users = svc.users)
    ∧ (∀ (svc : DataService) (reqs : List SortRequest),
      (runRequests parse now svc reqs).users = svc.users) :=
  ⟨fun svc f d uts => sortUsers_users parse now svc f d uts,
   fun _ _ _ => rfl,
   fun _ _ _ => rfl,
   fun _ => rfl,
   fun _ => rfl,
   fun svc reqs => runRequests_users parse now svc reqs⟩

/-- Witness for C7: with a null-city record among three users, position 2 of
the ascending city sort carries the null key given that position 1 does. -/
theorem claim_C7_null_ordering_witness :
    (1 : Nat) ≤ 2
    ∧ (2 : Nat) < (sortedOutput p0 0 [uWnull, uW1, uW3] [] "city" "asc" none).length
    ∧ getSortValue p0 0
        ((sortedOutput p0 0 [uWnull, uW1, uW3] [] "city" "asc" none).get
          ⟨2, by decide⟩) "city" = JSVal.null := by
  refine ⟨by decide, by decide, ?_⟩
  exact (claim_C7_null_ordering p0 0 "city" [uWnull, uW1, uW3] [] none (by simp)).1
    2 2 (by decide) (by decide) (le_refl 2) (by decide)

/-! ### Claim C2 -/

/-- C2 (amended: the source splits the query into terms at space characters —
`split(' ')` — so whitespace other than a space stays inside a term):
a blank-trimming query returns the full collection unchanged; otherwise the
result is the order-preserving subsequence of the collection of exactly those
records for which every term matches at least one of the specified fields. -/
theorem claim_C2_search_characterization (parse : String → Int) (now : Int)
    (svc : DataService) (query : String) (fields : List String) :
    (jsTrim query = "" → svc.searchUsers parse now query fields = svc.users)
    ∧ (jsTrim query ≠ "" →
        (svc.searchUsers parse now query fields).Sublist svc.users
        ∧ ∀ u : User, u ∈ svc.searchUsers parse now query fields ↔
            u ∈ svc.users ∧ ∀ t ∈ searchTerms query,
              ∃ f ∈ fields, fieldMatches parse now u t f = true) := by
  constructor
  · intro h
    simp [DataService.searchUsers, h]
  · intro h
    have hq : ¬ query = "" := by
      intro hq
      apply h
      rw [hq]
      rfl
    have heq : svc.searchUsers parse now query fields =
        svc.users.filter (userMatches parse now fields (searchTerms query)) := by
      simp [DataService.searchUsers, hq, h]
    rw [heq]
    refine ⟨List.filter_sublist _, ?_⟩
    intro u
    rw [List.mem_filter]
    simp [userMatches, List.all_eq_true, List.any_eq_true]

/-- C2 counterexample: for the query `"alpha\tbeta"` (two words separated by
a tab) on a record with firstName `"alpha"` and city `"beta"`, the source
returns nothing, while the whitespace-term description returns the record. -/
theorem claim_C2_counterexample :
    DataService.searchUsers p0 0 svcAB "alpha\tbeta" defaultSearchFields = []
    ∧ specSearchUsers p0 0 svcAB.users "alpha\tbeta" defaultSearchFields =
        [demoUserAB] := by
  exact ⟨by decide, by decide⟩

/-- Witness for C2: a whitespace-only query returns the collection; a
space-separated query matches through the characterization. -/
theorem claim_C2_search_witness :
    DataService.searchUsers p0 0 svcAB "   " defaultSearchFields = svcAB.users
    ∧ (demoUserAB ∈ DataService.searchUsers p0 0 svcAB "alpha beta" defaultSearchFields ↔
        demoUserAB ∈ svcAB.users ∧ ∀ t ∈ searchTerms "alpha beta",
          ∃ f ∈ defaultSearchFields, fieldMatches p0 0 demoUserAB t f = true) := by
  refine ⟨(claim_C2_search_characterization p0 0 svcAB "   " defaultSearchFields).1
    (by decide), ?_⟩
  exact ((claim_C2_search_characterization p0 0 svcAB "alpha beta"
    defaultSearchFields).2 (by decide)).2 demoUserAB

/-! ### Claims C4, C5, C6: the generator -/

/-- Strip the clock-dependent field. -/
def eraseDate (u : User) : User := { u with registeredDate := none }

/-- The faker state advance of one loop iteration (independent of the record
id and of the clock). -/
def stepState (s : Nat) : Nat := (genRecord s 0 0).2

/-- A constant clock. -/
def clockA : Nat → Int := fun _ => epoch2020

/-- A constant clock observed much later. -/
def clockB : Nat → Int := fun _ => epoch2020 + 86400000000

/-- A clock that advances by a day per reading. -/
def clockStep : Nat → Int := fun j => epoch2020 + 86400000000 * (j : Int)

/-- A clock agreeing with `clockStep` only at reading 1. -/
def clockOnly1 : Nat → Int := fun j => if j = 1 then clockStep 1 else epoch2020

/-- One iteration's state advance does not depend on the record id or the
clock reading. -/
theorem genRecord_state (s : Nat) (i : Int) (u : Int) :
    (genRecord s i u).2 = stepState s := by
  simp [genRecord, stepState, fakerDateBetween]

/-- Away from `registeredDate`, one iteration's record does not depend on the
clock reading. -/
theorem genRecord_eraseDate (s : Nat) (i : Int) (u v : Int) :
    eraseDate (genRecord s i u).1 = eraseDate (genRecord s i v).1 := by
  simp [genRecord, eraseDate, fakerDateBetween]

theorem genUsersFrom_map_eraseDate (nows₁ nows₂ : Nat → Int) :
    ∀ (k : Nat) (i : Int) (s : Nat),
      (genUsersFrom nows₁ k i s).map eraseDate =
        (genUsersFrom nows₂ k i s).map eraseDate := by
  intro k
  induction k with
  | zero => intro i s; rfl
  | succ k ih =>
    intro i s
    simp only [genUsersFrom, List.map_cons]
    rw [genRecord_eraseDate s i (nows₁ (i - 1).toNat) (nows₂ (i - 1).toNat),
      genRecord_state s i (nows₁ (i - 1).toNat),
      genRecord_state s i (nows₂ (i - 1).toNat),
      ih (i + 1) (stepState s)]

theorem genUsersFrom_congr (nows₁ nows₂ : Nat → Int)
    (hcl : ∀ j, nows₁ j = nows₂ j) :
    ∀ (k : Nat) (i : Int) (s : Nat),
      genUsersFrom nows₁ k i s = genUsersFrom nows₂ k i s := by
  intro k
  induction k with
  | zero => intro i s; rfl
  | succ k ih =>
    intro i s
    simp only [genUsersFrom]
    rw [hcl ((i - 1).toNat), ih (i + 1) ((genRecord s i (nows₂ (i - 1).toNat)).2)]

/-- C4 (amended: ids, names, emails and cities are deterministic — the seeded
faker stream does not depend on the clock — but `registeredDate` is sampled up
to `new Date()`, so full field-identity holds only when the two runs observe
the same clock readings). -/
theorem claim_C4_determinism_amended (count : Int) (nows₁ nows₂ : Nat → Int) :
    (generateFakeUsers nows₁ count).map eraseDate =
      (generateFakeUsers nows₂ count).map eraseDate
    ∧ ((∀ j, nows₁ j = nows₂ j) →
        generateFakeUsers nows₁ count = generateFakeUsers nows₂ count) :=
  ⟨genUsersFrom_map_eraseDate nows₁ nows₂ count.toNat 1 (fakerSeed 12345),
   fun h => genUsersFrom_congr nows₁ nows₂ h count.toNat 1 (fakerSeed 12345)⟩

/-- C4 counterexample: the same call made at two different wall-clock times
produces different `registeredDate` values (so generation is not
clock-independent, which is what identity across process restarts requires). -/
theorem claim_C4_counterexample :
    generateFakeUsers clockA 1 ≠ generateFakeUsers clockB 1 := by decide

/-- Witness for C4: the non-date projections agree across the two clocks, and
a pointwise-equal clock yields identical output. -/
theorem claim_C4_determinism_witness :
    (generateFakeUsers clockA 2).map eraseDate =
      (generateFakeUsers clockB 2).map eraseDate
    ∧ generateFakeUsers clockA 2 = generateFakeUsers (fun j => clockA j) 2 := by
  refine ⟨(claim_C4_determinism_amended 2 clockA clockB).1, ?_⟩
  exact (claim_C4_determinism_amended 2 clockA (fun j => clockA j)).2 (fun _ => rfl)

theorem genUsersFrom_getElem (nows : Nat → Int) :
    ∀ (k j : Nat) (i : Int), 1 ≤ i → ∀ s : Nat,
      (genUsersFrom nows k i s)[j]? =
        if j < k then
          some (genRecord (stepState^[j] s) (i + (j : Int))
            (nows ((i - 1).toNat + j))).1
        else none := by
  intro k
  induction k with
  | zero => intro j i hi s; simp [genUsersFrom]
  | succ k ih =>
    intro j i hi s
    cases j with
    | zero =>
      simp [genUsersFrom]
    | succ j =>
      simp only [genUsersFrom, List.getElem?_cons_succ]
      rw [ih j (i + 1) (by omega) ((genRecord s i (nows (i - 1).toNat)).2)]
      rw [genRecord_state s i (nows (i - 1).toNat), ← Function.iterate_succ_apply]
      have hidx : ((i + 1) - 1).toNat + j = (i - 1).toNat + (j + 1) := by omega
      have hii : (i + 1) + (j : Int) = i + ((j + 1 : Nat) : Int) := by push_cast; ring
      rw [hidx, hii]
      by_cases hjk : j < k
      · rw [if_pos hjk, if_pos (by omega)]
      · rw [if_neg hjk, if_neg (by omega)]

/-- C5 (amended: the upper bound of the date-sampling window is re-read from
the clock on every loop iteration, so record `j + 1` depends on the clock
exactly through reading `j`: outputs at position `j` agree whenever the two
clocks agree at reading `j`). -/
theorem claim_C5_upper_bound_amended (count : Int) (nows₁ nows₂ : Nat → Int)
    (j : Nat) (h : nows₁ j = nows₂ j) :
    (generateFakeUsers nows₁ count)[j]? = (generateFakeUsers nows₂ count)[j]? := by
  unfold generateFakeUsers
  rw [genUsersFrom_getElem nows₁ count.toNat j 1 (by omega) (fakerSeed 12345),
    genUsersFrom_getElem nows₂ count.toNat j 1 (by omega) (fakerSeed 12345)]
  have hidx : ((1 : Int) - 1).toNat + j = j := by omega
  rw [hidx, h]

/-- C5 counterexample: the generation-time upper bound is not captured once
before the loop — with a clock that advances between iterations the output
differs from the output using the loop-initial reading throughout. -/
theorem claim_C5_counterexample :
    generateFakeUsers clockStep 2 ≠ generateFakeUsers (fun _ => clockStep 0) 2 := by
  decide

/-- Witness for C5: two clocks that agree only at reading 1 produce the same
record at position 1. -/
theorem claim_C5_upper_bound_witness :
    (generateFakeUsers clockStep 2)[1]? = (generateFakeUsers clockOnly1 2)[1]? :=
  claim_C5_upper_bound_amended 2 clockStep clockOnly1 1 (by decide)

/-- C6 (amended: unsupported export formats do raise the unsupported-format
error, but the generator does not raise on a negative count — its loop simply
does not run, returning the empty sequence). -/
theorem claim_C6_invalid_arguments (parse : String → Int) (now : Int)
    (fmtDate : Option String → String) (nowIso : String) :
    (∀ (svc : DataService) (format : String) (ute : Option (List User)),
      format ≠ "csv" → format ≠ "json" →
      svc.exportUsers parse now fmtDate nowIso format ute =
        Except.error ("Unsupported export format: " ++ format))
    ∧ (∀ (nows : Nat → Int) (count : Int), count < 0 →
        generateFakeUsers nows count = []) := by
  constructor
  · intro svc format ute h1 h2
    unfold DataService.exportUsers
    rw [if_neg h1, if_neg h2]
  · intro nows count h
    unfold generateFakeUsers
    have hz : count.toNat = 0 := by omega
    rw [hz]
    rfl

/-- C6 counterexample: a negative count yields a (zero-length) sequence, not
an invalid-argument error. -/
theorem claim_C6_counterexample :
    generateFakeUsers (fun _ => epoch2020) (-5) = [] := by decide

/-- Witness for C6: an unsupported format raises; a negative count returns
the empty sequence. -/
theorem claim_C6_invalid_arguments_witness :
    svcAB.exportUsers p0 0 fmt0 "E" "xml" none =
      Except.error ("Unsupported export format: " ++ "xml")
    ∧ generateFakeUsers (fun _ => epoch2020) (-7) = [] :=
  ⟨(claim_C6_invalid_arguments p0 0 fmt0 "E").1 svcAB "xml" none (by decide) (by decide),
   (claim_C6_invalid_arguments p0 0 fmt0 "E").2 (fun _ => epoch2020) (-7) (by decide)⟩

/-! ### Claims C8 and C10: CSV and JSON export -/

/-- The key order of `toPlainObject`, which is also the CSV header order. -/
def plainHeaders : List String :=
  ["id", "firstName", "lastName", "fullName", "email", "city", "registeredDate",
   "daysSinceRegistered"]

/-- A user whose city is the spec's CSV-escaping example. -/
def lakeCityUser : User :=
  { id := 1, firstName := some "Ann", lastName := some "Smith",
    email := some "a@b.cc", city := some "Smith, \"Lake\" City",
    registeredDate := some "0" }

/-- C8: string field values containing a comma, double quote or newline are
emitted wrapped in double quotes with internal quotes doubled; other string
values are emitted as themselves unquoted; non-zero numeric cells are emitted
in plain decimal; and the concrete export of a record with city
`Smith, "Lake" City` carries the cell `"Smith, ""Lake"" City"`. -/
theorem claim_C8_csv_escaping :
    (∀ s : String, hasSpecialCsv s = true →
      csvCell (JSVal.str s) = "\"" ++ escQuotes s ++ "\"")
    ∧ (∀ s : String, hasSpecialCsv s = false → csvCell (JSVal.str s) = s)
    ∧ (∀ n : Int, n ≠ 0 → csvCell (JSVal.num n) = toString n)
    ∧ exportUsersCsv p0 0 fmt0 [lakeCityUser] =
        "id,firstName,lastName,fullName,email,city,registeredDate,daysSinceRegistered\n" ++
        "1,Ann,Smith,Ann Smith,a@b.cc,\"Smith, \"\"Lake\"\" City\",\"Jan 1, 2020\"," := by
  refine ⟨?_, ?_, ?_, by decide⟩
  · intro s h
    have hempty : ¬ s = "" := by
      intro he
      subst he
      simp [hasSpecialCsv, strContainsChar] at h
    simp [csvCell, jsFalsy, hempty, h]
  · intro s h
    by_cases hempty : s = ""
    · subst hempty
      rfl
    · simp [csvCell, jsFalsy, hempty, h]
  · intro n h
    simp [csvCell, jsFalsy, h, jsValToString]

/-- Witness for C8: the example cell quotes and doubles; a plain cell and a
numeric cell pass through. -/
theorem claim_C8_csv_escaping_witness :
    csvCell (JSVal.str "Smith, \"Lake\" City") = "\"Smith, \"\"Lake\"\" City\""
    ∧ csvCell (JSVal.str "plain") = "plain"
    ∧ csvCell (JSVal.num 7) = "7" := by
  refine ⟨?_, ?_, ?_⟩
  · rw [claim_C8_csv_escaping.1 "Smith, \"Lake\" City" (by decide)]
    decide
  · exact claim_C8_csv_escaping.2.1 "plain" (by decide)
  · exact claim_C8_csv_escaping.2.2.1 7 (by decide)

set_option maxRecDepth 4000 in
/-- C10: every falsy plain-object value serializes as the empty CSV cell; in
particular a record whose `daysSinceRegistered` computes to 0 exports an empty
final CSV cell, while the JSON export of such a record carries the value 0. -/
theorem claim_C10_falsy_cells (parse : String → Int) (now : Int)
    (fmtDate : Option String → String) :
    (∀ v : JSVal, jsFalsy v = true → csvCell v = "")
    ∧ (∀ u : User, u.daysSinceRegistered parse now = 0 →
        (csvRow plainHeaders (toPlainObject parse now fmtDate u)).getLast? = some "")
    ∧ isInfOf ("\"daysSinceRegistered\": 0\n").data
        (exportUsersJson p0 0 fmt0 "E" [lakeCityUser]).data = true := by
  refine ⟨?_, ?_, by decide⟩
  · intro v h
    simp [csvCell, h, hasSpecialCsv, strContainsChar]
  · intro u h
    have hrow : (csvRow plainHeaders (toPlainObject parse now fmtDate u)).getLast? =
        some (csvCell (JSVal.num (u.daysSinceRegistered parse now))) := rfl
    rw [hrow, h]
    rfl

/-- Witness for C10: the empty string is a falsy value emitted as the empty
cell, and the concrete zero-days record exports an empty final cell. -/
theorem claim_C10_falsy_cells_witness :
    csvCell (JSVal.str "") = ""
    ∧ (csvRow plainHeaders (toPlainObject p0 0 fmt0 lakeCityUser)).getLast? = some "" := by
  refine ⟨(claim_C10_falsy_cells p0 0 fmt0).1 (JSVal.str "") (by decide), ?_⟩
  exact (claim_C10_falsy_cells p0 0 fmt0).2.1 lakeCityUser (by decide)
